import Mathlib

/-!
Shallow embedding of the go-ffmpeg transcode pipeline.

Sources embedded here:
- src/progress.go        : the current, fixed-position progress-line parser
  (`newProgress`) together with the `Progress` record.
- src/unnamed/part_000   : the older, name-scanning parser (embedded below as
  `newProgressOld` over `ProgressOld`); it is the revision that handles the
  literal token N/A and clamps percent-complete away from zero.
- src/ffmpeg.go          : the orchestrator; its `cleanUp` routine and the
  reader goroutine started by `Start` are embedded as state transformers over
  an explicit channel/file state, producing an event trace.
- src/errors.go          : the error sentinels, embedded as `GoError`.

Modelling conventions:
- Go `time.Duration` and `time.Time` are `Int` (nanoseconds); `int`/`int64`
  arithmetic that the source performs on durations wraps modulo 2^64 into the
  signed range, which the `i64`/`w64add`/`w64mul`/`w64sub` helpers make
  explicit.
- Go `float64` values are modelled as exact rationals; the source only
  performs parse/divide/multiply steps whose behaviour on the inputs the
  theorems speak about is exact, and theorems that depend on a division keep
  a nonzero-divisor hypothesis because `ℚ` division by zero is total (zero)
  while Go produces an infinity.
- `unicode.IsLetter`/`unicode.IsNumber` are modelled on the ASCII fragment
  (`Char.isAlpha`/`Char.isDigit`), which covers every character the tool's
  diagnostic lines contain.
- The wall clock read by `time.Since(startTime)` is an explicit `now`
  argument.
- Channel operations: a non-blocking `select`-send delivers exactly when a
  receiver is ready and panics when the channel is closed; `close` of a
  closed channel panics.  Panics are modelled as `none : Option _`.
-/

/- The compiler seals the well-founded definitions of the core rational
operations; unsealing them lets concrete evaluations go through `decide`. -/
unseal Rat.mul Rat.add Rat.inv Rat.sub

instance {ε α : Type} [DecidableEq ε] [DecidableEq α] : DecidableEq (Except ε α) := fun x y =>
  match x, y with
  | .ok a, .ok b =>
    if h : a = b then isTrue (by rw [h]) else isFalse (by intro hh; cases hh; exact h rfl)
  | .error a, .error b =>
    if h : a = b then isTrue (by rw [h]) else isFalse (by intro hh; cases hh; exact h rfl)
  | .ok _, .error _ => isFalse (by intro hh; cases hh)
  | .error _, .ok _ => isFalse (by intro hh; cases hh)

/-! ## Go standard-library helpers -/

/-- ASCII fragment of Go `unicode.IsLetter`. -/
def goIsLetter (c : Char) : Bool := c.isAlpha

/-- ASCII fragment of Go `unicode.IsNumber`. -/
def goIsNumber (c : Char) : Bool := c.isDigit

/-- Go `strings.HasPrefix`. -/
def goStartsWith (s p : String) : Bool := List.isPrefixOf p.toList s.toList

/-- Accumulator loop of Go `strings.FieldsFunc`: maximal runs of
non-separator characters, empty fields discarded. -/
def goFieldsAux (f : Char → Bool) : List Char → List Char → List String
  | [], acc => if acc.isEmpty then [] else [String.mk acc.reverse]
  | c :: r, acc =>
    if f c then
      if acc.isEmpty then goFieldsAux f r []
      else String.mk acc.reverse :: goFieldsAux f r []
    else goFieldsAux f r (c :: acc)

/-- Go `strings.FieldsFunc`. -/
def goFieldsFunc (s : String) (f : Char → Bool) : List String :=
  goFieldsAux f s.toList []

/-- Go `strings.Split` with a one-character separator (the source only
splits on `":"`). -/
def splitOnChar (sep : Char) : List Char → List (List Char)
  | [] => [[]]
  | c :: r =>
    let rest := splitOnChar sep r
    if c = sep then [] :: rest
    else
      match rest with
      | h :: t => (c :: h) :: t
      | [] => [[c]]

/-- Go `strings.Split(s, sep)` for a one-character `sep`. -/
def goSplit (s : String) (sep : Char) : List String :=
  (splitOnChar sep s.toList).map (fun l => String.mk l)

/-- Go `strings.TrimRight`: remove trailing characters belonging to the
cutset. -/
def goTrimRight (s cutset : String) : String :=
  String.mk ((s.toList.reverse.dropWhile (fun c => cutset.toList.contains c)).reverse)

/-- Go `strings.TrimSpace` (ASCII whitespace fragment). -/
def goTrimSpace (s : String) : String :=
  String.mk ((s.toList.dropWhile Char.isWhitespace).reverse.dropWhile Char.isWhitespace |>.reverse)

/-- Decimal digits to a natural number. -/
def digitsToNat (l : List Char) : Nat :=
  l.foldl (fun a c => a * 10 + (c.toNat - 48)) 0

/-- Go `strconv.Atoi` on a 64-bit platform: optional sign, one or more
decimal digits, error on anything else and on values outside int64. -/
def goAtoi (s : String) : Option Int :=
  match s.toList with
  | [] => none
  | c :: rest =>
    let signDigits : Int × List Char :=
      if c = '+' then (1, rest) else if c = '-' then (-1, rest) else (1, c :: rest)
    let sign := signDigits.1
    let digits := signDigits.2
    if digits.isEmpty then none
    else if !digits.all Char.isDigit then none
    else
      let v : Int := sign * (digitsToNat digits : Int)
      if v < -(2 ^ 63) ∨ v > 2 ^ 63 - 1 then none else some v

/-- Mantissa of a Go decimal float literal: digit characters with at most one
dot, at least one digit; returns the digit string value and the number of
fractional digits. -/
def parseMantissa (cs : List Char) : Option (Nat × Nat) :=
  let ip := cs.takeWhile Char.isDigit
  let r := cs.dropWhile Char.isDigit
  match r with
  | [] => if ip.isEmpty then none else some (digitsToNat ip, 0)
  | '.' :: r2 =>
    let fp := r2.takeWhile Char.isDigit
    let r3 := r2.dropWhile Char.isDigit
    if r3.isEmpty ∧ ¬(ip.isEmpty ∧ fp.isEmpty) then
      some (digitsToNat (ip ++ fp), fp.length)
    else none
  | _ => none

/-- Split a float literal at the first exponent marker. -/
def splitExpMarker (cs : List Char) : List Char × Option (List Char) :=
  let m := cs.takeWhile (fun c => c ≠ 'e' ∧ c ≠ 'E')
  let r := cs.dropWhile (fun c => c ≠ 'e' ∧ c ≠ 'E')
  match r with
  | [] => (m, none)
  | _ :: t => (m, some t)

/-- Exponent part of a Go float literal: optional sign, one or more digits. -/
def parseExpDigits (cs : List Char) : Option Int :=
  match cs with
  | [] => none
  | c :: rest =>
    let signDigits : Int × List Char :=
      if c = '+' then (1, rest) else if c = '-' then (-1, rest) else (1, c :: rest)
    let sign := signDigits.1
    let digits := signDigits.2
    if digits.isEmpty then none
    else if !digits.all Char.isDigit then none
    else some (sign * (digitsToNat digits : Int))

/-- Go `strconv.ParseFloat(s, 64)`, restricted to the finite decimal forms
the diagnostic lines use, with the value kept exact in `ℚ`. -/
def goParseFloat (s : String) : Option ℚ :=
  let cs := s.toList
  let signRest : Int × List Char :=
    match cs with
    | '+' :: r => (1, r)
    | '-' :: r => (-1, r)
    | r => (1, r)
  let sign := signRest.1
  let body := signRest.2
  let me := splitExpMarker body
  match parseMantissa me.1 with
  | none => none
  | some (val, fracLen) =>
    match me.2 with
    | none => some ((sign * val : Int) / (10 ^ fracLen : ℚ))
    | some ecs =>
      match parseExpDigits ecs with
      | none => none
      | some ex => some ((sign * val : Int) / (10 ^ fracLen : ℚ) * (10 : ℚ) ^ ex)

/-! ## Machine-integer and duration arithmetic -/

/-- Wrap an integer into the signed 64-bit range. -/
def i64 (n : Int) : Int :=
  (n + 9223372036854775808) % 18446744073709551616 - 9223372036854775808

def w64add (a b : Int) : Int := i64 (a + b)

def w64sub (a b : Int) : Int := i64 (a - b)

def w64mul (a b : Int) : Int := i64 (a * b)

/-- Go conversion of a float64 to an integer type: truncation toward zero
(exact on the in-range values the theorems use). -/
def ratTrunc (q : ℚ) : Int := Int.tdiv q.num q.den

/-- time.Second in nanoseconds. -/
def durSecond : Int := 1000000000

/-- time.Minute in nanoseconds. -/
def durMinute : Int := 60000000000

/-- time.Hour in nanoseconds. -/
def durHour : Int := 3600000000000

/-! ## Error sentinels (src/errors.go) -/

inductive GoError where
  | noProgressInformation
  | wrongNumberOfFields
  | frameNumber
  | fps
  | q
  | size
  | time
  | bitrate
  | dup
  | drop
  | speed
  deriving DecidableEq, Repr

/-! ## The current parser (src/progress.go) -/

/-- The `Progress` struct of src/progress.go. -/
structure Progress where
  InputFile : String
  OutputFile : String
  Frame : Int
  FPS : ℚ
  Q : ℚ
  Size : ℚ
  Time : Int
  Bitrate : ℚ
  Dup : Int
  Drop : Int
  Speed : ℚ
  PercentComplete : ℚ
  TimeRemaining : Int
  EstimatedFinishTime : Int
  deriving DecidableEq, Repr

def FrameIndex : Nat := 1
def FPSIndex : Nat := 3
def QIndex : Nat := 5
def SizeIndex : Nat := 7
def TimeIndex : Nat := 9
def BitrateIndex : Nat := 11
def DupIndex : Nat := 13
def DropIndex : Nat := 15
def SpeedIndex : Nat := 17

/-- The `fieldsFunc` closure of src/progress.go lines 76-78 (identical in the
older revisions). -/
def fieldsFuncGo (c : Char) : Bool :=
  !(goIsLetter c) && !(goIsNumber c) && c ≠ '.' && c ≠ '-' && c ≠ ':' && c ≠ '/'

/-- Tokenization used by every parser revision:
`strings.FieldsFunc(line, fieldsFunc)`. -/
def splitFields (line : String) : List String := goFieldsFunc line fieldsFuncGo

/-- The time-field block of src/progress.go lines 112-135: split on `:` into
exactly three parts, hours and minutes via Atoi, seconds via ParseFloat, and
combine — `time.Duration(seconds)` truncates the float toward zero before the
multiplication by `time.Second`. -/
def parseTimeToken (tok : String) : Except GoError Int :=
  let splitTime := goSplit tok ':'
  if splitTime.length ≠ 3 then .error .time
  else
    match goAtoi (splitTime.getD 0 "") with
    | none => .error .time
    | some hours =>
      match goAtoi (splitTime.getD 1 "") with
      | none => .error .time
      | some minutes =>
        match goParseFloat (splitTime.getD 2 "") with
        | none => .error .time
        | some seconds =>
          .ok (w64add (w64add (w64mul hours durHour) (w64mul minutes durMinute))
                (w64mul (ratTrunc seconds) durSecond))

/-- The nine raw field values produced by the parsing prefix of
`newProgress` (src/progress.go lines 88-159). -/
structure RawFields where
  frame : Int
  fps : ℚ
  q : ℚ
  size : ℚ
  timeThroughFile : Int
  bitrate : ℚ
  dup : Int
  drop : Int
  speed : ℚ
  deriving DecidableEq, Repr

/-- Field-count check and per-field conversions of src/progress.go
lines 84-159, over the token list. -/
def parseFieldsOf (fields : List String) : Except GoError RawFields :=
  if fields.length ≠ 18 then .error .wrongNumberOfFields
  else
    match goAtoi (fields.getD FrameIndex "") with
    | none => .error .frameNumber
    | some frame =>
      match goParseFloat (fields.getD FPSIndex "") with
      | none => .error .fps
      | some fps =>
        match goParseFloat (fields.getD QIndex "") with
        | none => .error .q
        | some q =>
          match goParseFloat (goTrimRight (fields.getD SizeIndex "") "KiB") with
          | none => .error .size
          | some size =>
            match parseTimeToken (fields.getD TimeIndex "") with
            | .error e => .error e
            | .ok timeThroughFile =>
              match goParseFloat (goTrimRight (fields.getD BitrateIndex "") "kbit/s") with
              | none => .error .bitrate
              | some bitrate =>
                match goAtoi (fields.getD DupIndex "") with
                | none => .error .dup
                | some dup =>
                  match goAtoi (fields.getD DropIndex "") with
                  | none => .error .drop
                  | some drop =>
                    match goParseFloat (goTrimRight (fields.getD SpeedIndex "") "x") with
                    | none => .error .speed
                    | some speed =>
                      .ok ⟨frame, fps, q, size, timeThroughFile, bitrate, dup, drop, speed⟩

/-- The pure parsing prefix of `newProgress` (src/progress.go lines 71-159):
prefix check, tokenization, field count, conversions.  Factored out of
`newProgress` so that the clock-dependent tail below is isolated; the
composition in `newProgress` follows the source order exactly. -/
def parseLine (line : String) : Except GoError RawFields :=
  if goStartsWith line "frame=" = false then .error .noProgressInformation
  else parseFieldsOf (splitFields line)

/-- src/progress.go `newProgress`.  `duration`, `startTime` and `now` are in
nanoseconds; `now - startTime` is the `time.Since(startTime)` reading. -/
def newProgress (line : String) (duration startTime now : Int)
    (inputFile outputFile : String) : Except GoError Progress :=
  match parseLine line with
  | .error e => .error e
  | .ok rf =>
    let percentComplete : ℚ := (rf.timeThroughFile : ℚ) / (duration : ℚ) * 100
    let timeTaken : Int := w64sub now startTime
    let timeRemaining : Int :=
      ratTrunc ((timeTaken : ℚ) / percentComplete * (100 - percentComplete))
    let predictedFinishTime : Int := startTime + w64add timeTaken timeRemaining
    .ok { InputFile := inputFile, OutputFile := outputFile, Frame := rf.frame,
          FPS := rf.fps, Q := rf.q, Size := rf.size, Time := rf.timeThroughFile,
          Bitrate := rf.bitrate, Dup := rf.dup, Drop := rf.drop, Speed := rf.speed,
          PercentComplete := percentComplete, TimeRemaining := timeRemaining,
          EstimatedFinishTime := predictedFinishTime }

/-! ## The older name-scanning parser (src/unnamed/part_000) -/

/-- The `Progress` struct of the older revision: no dup/drop fields. -/
structure ProgressOld where
  InputFile : String
  OutputFile : String
  Frame : Int
  FPS : ℚ
  Q : ℚ
  Size : ℚ
  Time : Int
  Bitrate : ℚ
  Speed : ℚ
  PercentComplete : ℚ
  TimeRemaining : Int
  EstimatedFinishTime : Int
  deriving DecidableEq, Repr

/-- The index-locating loop of part_000 lines 78-97: for each known field
name, the position one past its last occurrence; the Go zero value 0 when the
name never occurs. -/
def scanIndex (fields : List String) (name : String) : Nat :=
  (List.range fields.length).foldl
    (fun acc i => if fields.getD i "" = name then i + 1 else acc) 0

/-- Integer-field block of part_000 (lines 100-106 and analogues): index must
be set and in range, then Atoi. -/
def oldIntField (fields : List String) (idx : Nat) (e : GoError) : Except GoError Int :=
  if idx ≠ 0 ∧ idx < fields.length then
    match goAtoi (fields.getD idx "") with
    | none => .error e
    | some v => .ok v
  else .error e

/-- Plain float-field block of part_000 (fps, q). -/
def oldFloatField (fields : List String) (idx : Nat) (e : GoError) : Except GoError ℚ :=
  if idx ≠ 0 ∧ idx < fields.length then
    match goParseFloat (fields.getD idx "") with
    | none => .error e
    | some v => .ok v
  else .error e

/-- Float-field block with a trailing-unit TrimRight (size). -/
def oldFloatTrimField (fields : List String) (idx : Nat) (cutset : String) (e : GoError) :
    Except GoError ℚ :=
  if idx ≠ 0 ∧ idx < fields.length then
    match goParseFloat (goTrimRight (fields.getD idx "") cutset) with
    | none => .error e
    | some v => .ok v
  else .error e

/-- Float-field block with N/A handling and TrimRight (bitrate, speed;
part_000 lines 167-193): the literal token N/A maps to zero. -/
def oldFloatNATrimField (fields : List String) (idx : Nat) (cutset : String) (e : GoError) :
    Except GoError ℚ :=
  if idx ≠ 0 ∧ idx < fields.length then
    if fields.getD idx "" = "N/A" then .ok 0
    else
      match goParseFloat (goTrimRight (fields.getD idx "") cutset) with
      | none => .error e
      | some v => .ok v
  else .error e

/-- Time block of part_000 lines 136-165: N/A maps to a zero duration,
otherwise the same three-part split-and-combine as the current revision. -/
def oldTimeField (fields : List String) (idx : Nat) : Except GoError Int :=
  if idx ≠ 0 ∧ idx < fields.length then
    if fields.getD idx "" = "N/A" then .ok 0
    else parseTimeToken (fields.getD idx "")
  else .error .time

/-- Raw field values of the older parser. -/
structure RawFieldsOld where
  frame : Int
  fps : ℚ
  q : ℚ
  size : ℚ
  timeThroughFile : Int
  bitrate : ℚ
  speed : ℚ
  deriving DecidableEq, Repr

/-- Token list of the older parser: `strings.FieldsFunc` output with each
token passed through TrimSpace (part_000 lines 74-79). -/
def oldFields (line : String) : List String :=
  (splitFields line).map goTrimSpace

/-- Parsing prefix of part_000 `newProgress` (lines 64-193): prefix check,
tokenization with per-token TrimSpace, name-scan index location, per-field
conversion blocks in source order. -/
def parseLineOld (line : String) : Except GoError RawFieldsOld :=
  if goStartsWith line "frame=" = false then .error .noProgressInformation
  else
    let fields := oldFields line
    match oldIntField fields (scanIndex fields "frame") .frameNumber with
    | .error e => .error e
    | .ok frame =>
      match oldFloatField fields (scanIndex fields "fps") .fps with
      | .error e => .error e
      | .ok fps =>
        match oldFloatField fields (scanIndex fields "q") .q with
        | .error e => .error e
        | .ok q =>
          match oldFloatTrimField fields (scanIndex fields "size") "KiB" .size with
          | .error e => .error e
          | .ok size =>
            match oldTimeField fields (scanIndex fields "time") with
            | .error e => .error e
            | .ok timeThroughFile =>
              match oldFloatNATrimField fields (scanIndex fields "bitrate") "kbit/s" .bitrate with
              | .error e => .error e
              | .ok bitrate =>
                match oldFloatNATrimField fields (scanIndex fields "speed") "x" .speed with
                | .error e => .error e
                | .ok speed =>
                  .ok ⟨frame, fps, q, size, timeThroughFile, bitrate, speed⟩

/-- part_000 `newProgress`: after the field conversions it computes percent
complete, reads the clock, clamps a zero percent complete to 0.01 (lines
201-204) and derives time remaining and the estimated finish time. -/
def newProgressOld (line : String) (duration startTime now : Int)
    (inputFile outputFile : String) : Except GoError ProgressOld :=
  match parseLineOld line with
  | .error e => .error e
  | .ok rf =>
    let percentComplete0 : ℚ := (rf.timeThroughFile : ℚ) / (duration : ℚ) * 100
    let timeTaken : Int := w64sub now startTime
    let percentComplete : ℚ := if percentComplete0 = 0 then 0.01 else percentComplete0
    let timeRemaining : Int :=
      ratTrunc ((timeTaken : ℚ) / percentComplete * (100 - percentComplete))
    let predictedFinishTime : Int := startTime + w64add timeTaken timeRemaining
    .ok { InputFile := inputFile, OutputFile := outputFile, Frame := rf.frame,
          FPS := rf.fps, Q := rf.q, Size := rf.size, Time := rf.timeThroughFile,
          Bitrate := rf.bitrate, Speed := rf.speed,
          PercentComplete := percentComplete, TimeRemaining := timeRemaining,
          EstimatedFinishTime := predictedFinishTime }

/-! ## The orchestrator (src/ffmpeg.go, current revision)

The mutable state a run touches: the cancellation token, the destination
file, the three channels.  A channel is summarized by whether it has been
closed and whether a consumer is currently ready to receive (which decides
whether a non-blocking select-send delivers or drops).  Channel operations
that panic in Go (close of a closed channel, send on a closed channel)
are modelled as `none`. -/

structure RunState where
  ctxDone : Bool
  outputFileExists : Bool
  progressClosed : Bool
  errorClosed : Bool
  doneClosed : Bool
  progressReady : Bool
  errorReady : Bool
  doneReady : Bool
  deriving DecidableEq, Repr

/-- Observable actions of the run, in program order. -/
inductive Event where
  | removeFile
  | sendDone (v : Bool) (delivered : Bool)
  | sendProgressRec (p : Progress) (delivered : Bool)
  | sendErr (e : GoError) (delivered : Bool)
  | closeProgress
  | closeError
  | closeDone
  | cancelProcess
  deriving DecidableEq, Repr

/-- Non-blocking send inside a `select` with a `default` branch: panics on a
closed channel, otherwise delivers exactly when a receiver is ready. -/
def sendNB (closed ready : Bool) : Option Bool :=
  if closed then none else some ready

/-- Go `close`: panics on a closed channel. -/
def closeChan (closed : Bool) : Option Unit :=
  if closed then none else some ()

/-- The Go zero value `Progress{}` sent by `cleanUp` on the normal path. -/
def zeroProgress : Progress :=
  { InputFile := "", OutputFile := "", Frame := 0, FPS := 0, Q := 0, Size := 0,
    Time := 0, Bitrate := 0, Dup := 0, Drop := 0, Speed := 0,
    PercentComplete := 0, TimeRemaining := 0, EstimatedFinishTime := 0 }

/-- src/ffmpeg.go `cleanUp` (lines 169-201): if the context was cancelled,
delete the output file and try to send false on Done; otherwise try to send
true on Done and, when that delivered, additionally try to send an empty
Progress record; then close the progress, error and done channels. -/
def cleanUp (s : RunState) : Option (RunState × List Event) := do
  let (s₁, evs₁) ←
    if s.ctxDone then do
      let s' := { s with outputFileExists := false }
      let d ← sendNB s'.doneClosed s'.doneReady
      pure (s', [Event.removeFile, Event.sendDone false d])
    else do
      let d ← sendNB s.doneClosed s.doneReady
      if d then do
        let dp ← sendNB s.progressClosed s.progressReady
        pure (s, [Event.sendDone true true, Event.sendProgressRec zeroProgress dp])
      else
        pure (s, [Event.sendDone true false])
  let _ ← closeChan s₁.progressClosed
  let s₂ := { s₁ with progressClosed := true }
  let _ ← closeChan s₂.errorClosed
  let s₃ := { s₂ with errorClosed := true }
  let _ ← closeChan s₃.doneClosed
  let s₄ := { s₃ with doneClosed := true }
  pure (s₄, evs₁ ++ [Event.closeProgress, Event.closeError, Event.closeDone])

/-- Characterization of the state `cleanUp` leaves behind when it does not
panic (helper for the lemmas below, not part of the embedding). -/
def cleanUpState (s : RunState) : RunState :=
  { s with outputFileExists := if s.ctxDone then false else s.outputFileExists,
           progressClosed := true, errorClosed := true, doneClosed := true }

/-- Characterization of the events `cleanUp` emits when it does not panic
(helper for the lemmas below, not part of the embedding). -/
def cleanUpEvents (s : RunState) : List Event :=
  (if s.ctxDone then [Event.removeFile, Event.sendDone false s.doneReady]
   else if s.doneReady then
     [Event.sendDone true true, Event.sendProgressRec zeroProgress s.progressReady]
   else [Event.sendDone true false])
  ++ [Event.closeProgress, Event.closeError, Event.closeDone]

/-- One read of the reader goroutine: `none` is a failed
`ReadString('\r')` (stream closed / process exited), `some line` a line. -/
abbrev ReadItem := Option String

/-- The reader goroutine of src/ffmpeg.go `Start` (lines 217-261), as a
function of the successive read outcomes: a read failure runs `cleanUp` and
stops; a benign non-progress line is skipped; any other parse failure is sent
non-blocking on the error channel, the subprocess is cancelled, `cleanUp`
runs and the task stops; a parsed record is sent non-blocking on the progress
channel and reading continues. -/
def readerRun (dur st now : Int) (inF outF : String) :
    List ReadItem → RunState → Option (RunState × List Event)
  | [], s => some (s, [])
  | none :: _, s => cleanUp s
  | some line :: rest, s =>
    match newProgress line dur st now inF outF with
    | .error e =>
      if e = .noProgressInformation then readerRun dur st now inF outF rest s
      else do
        let d ← sendNB s.errorClosed s.errorReady
        let (s', evs) ← cleanUp s
        pure (s', Event.sendErr e d :: Event.cancelProcess :: evs)
    | .ok p => do
      let d ← sendNB s.progressClosed s.progressReady
      let (s', evs) ← readerRun dur st now inF outF rest s
      pure (s', Event.sendProgressRec p d :: evs)

/-! ## Concrete inputs used by witnesses and counterexamples -/

/-- A well-formed 18-token diagnostic line whose time field is 01:02:03.50. -/
def lineFull : String :=
  "frame=  100 fps= 25 q=28.0 size=    2048KiB time=01:02:03.50 bitrate= 512.0kbit/s dup=1 drop=2 speed=1.02x"

/-- A well-formed 18-token line whose elapsed media time is zero. -/
def lineZeroTime : String :=
  "frame=  100 fps= 25 q=28.0 size=    2048KiB time=00:00:00.00 bitrate= 512.0kbit/s dup=1 drop=2 speed=1.02x"

/-- An 18-token line whose bitrate field is the literal token N/A. -/
def lineNABitrate : String :=
  "frame=  100 fps= 25 q=28.0 size=    2048KiB time=00:00:10.00 bitrate= N/A dup=0 drop=0 speed=1.02x"

/-- An 18-token line with a non-numeric frame value. -/
def lineBadFrame : String :=
  "frame=  abc fps= 25 q=28.0 size=    2048KiB time=00:00:10.00 bitrate= 512.0kbit/s dup=1 drop=2 speed=1.02x"

/-- A line that omits the dup and drop fields (14 tokens). -/
def lineNoDupDrop : String :=
  "frame=  100 fps= 25 q=28.0 size=    2048KiB time=00:00:10.00 bitrate= 512.0kbit/s speed=1.02x"

/-- A run state before cleanup: not cancelled, destination present, all
channels open, no consumer currently receiving. -/
def sOpenNC : RunState :=
  { ctxDone := false, outputFileExists := true, progressClosed := false,
    errorClosed := false, doneClosed := false, progressReady := false,
    errorReady := false, doneReady := false }

/-- A run state before cleanup with the cancellation token triggered. -/
def sOpenC : RunState :=
  { ctxDone := true, outputFileExists := true, progressClosed := false,
    errorClosed := false, doneClosed := false, progressReady := false,
    errorReady := false, doneReady := false }

/-- A non-cancelled run state with a consumer ready on the done channel but
none on the progress channel. -/
def sOpenReady : RunState :=
  { ctxDone := false, outputFileExists := true, progressClosed := false,
    errorClosed := false, doneClosed := false, progressReady := false,
    errorReady := false, doneReady := true }

/-- Number of done-channel closes in a trace (each non-panicking `cleanUp`
emits exactly one). -/
def closeDoneCount (evs : List Event) : Nat :=
  (evs.filter (fun e => decide (e = Event.closeDone))).length

/-- Whether an `Except` value is a success. -/
def exceptIsOk {ε α : Type} (x : Except ε α) : Bool :=
  match x with
  | .ok _ => true
  | .error _ => false

/-- The clock-independent part of a parse outcome: the failure, or every
record field not derived from the wall clock (all but TimeRemaining and
EstimatedFinishTime). -/
def stableOutcome (x : Except GoError Progress) :
    Except GoError (String × String × Int × ℚ × ℚ × ℚ × Int × ℚ × Int × Int × ℚ × ℚ) :=
  x.map (fun r => (r.InputFile, r.OutputFile, r.Frame, r.FPS, r.Q, r.Size, r.Time,
    r.Bitrate, r.Dup, r.Drop, r.Speed, r.PercentComplete))

/-- Modelled from the spec: the exact combination the spec asserts for the
time field — h hours + m minutes + s.f seconds, in nanoseconds, with the
fractional seconds kept exactly.  Used only to compare the source behaviour
against the spec sentence. -/
def specExactTimeNs (hh mm : Int) (ss : ℚ) : ℚ :=
  hh * 3600000000000 + mm * 60000000000 + ss * 1000000000

/-! ## Helper lemmas -/

theorem cleanUp_open (s : RunState) (hp : s.progressClosed = false)
    (he : s.errorClosed = false) (hd : s.doneClosed = false) :
    cleanUp s = some (cleanUpState s, cleanUpEvents s) := by
  obtain ⟨cd, fe, pc, ec, dc, pr, er, dr⟩ := s
  simp only at hp he hd
  subst hp he hd
  revert cd fe pr er dr
  decide

theorem closeDoneCount_cleanUpEvents (s : RunState) :
    closeDoneCount (cleanUpEvents s) = 1 := by
  obtain ⟨cd, fe, pc, ec, dc, pr, er, dr⟩ := s
  revert cd fe pc ec dc pr er dr
  decide

theorem closeDoneCount_cons_ne (e : Event) (evs : List Event)
    (h : e ≠ Event.closeDone) :
    closeDoneCount (e :: evs) = closeDoneCount evs := by
  simp [closeDoneCount, List.filter, h]

/-! ## Claim theorems -/

/-- C4: if the cancellation token was triggered before normal completion,
cleanup deletes the destination file and signals the run as not completed on
the done channel; otherwise it signals the run as completed; in both cases
the progress, error and done channels are closed. -/
theorem cleanUp_cancel_deletes_and_closes (s : RunState)
    (hp : s.progressClosed = false) (he : s.errorClosed = false)
    (hd : s.doneClosed = false) :
    cleanUp s = some (cleanUpState s, cleanUpEvents s) ∧
    (s.ctxDone = true →
      (cleanUpState s).outputFileExists = false ∧
      Event.sendDone false s.doneReady ∈ cleanUpEvents s) ∧
    (s.ctxDone = false → Event.sendDone true s.doneReady ∈ cleanUpEvents s) ∧
    (cleanUpState s).progressClosed = true ∧
    (cleanUpState s).errorClosed = true ∧
    (cleanUpState s).doneClosed = true ∧
    Event.closeProgress ∈ cleanUpEvents s ∧
    Event.closeError ∈ cleanUpEvents s ∧
    Event.closeDone ∈ cleanUpEvents s := by
  obtain ⟨cd, fe, pc, ec, dc, pr, er, dr⟩ := s
  simp only at hp he hd
  subst hp he hd
  revert cd fe pr er dr
  decide

/-- C4 witness: the cancelled concrete state. -/
theorem cleanUp_cancel_deletes_and_closes_witness :
    cleanUp sOpenC = some (cleanUpState sOpenC, cleanUpEvents sOpenC) ∧
    (cleanUpState sOpenC).outputFileExists = false ∧
    (cleanUpState sOpenC).progressClosed = true := by
  have h := cleanUp_cancel_deletes_and_closes sOpenC rfl rfl rfl
  exact ⟨h.1, (h.2.1 rfl).1, h.2.2.2.1⟩

/-- C5 counterexample: `cleanUp` is not idempotent.  A second invocation from
a state the first one left behind faults (the Go program would panic on a
send/close against an already-closed channel, modelled as `none`) instead of
being the safe no-op the claim asserts. -/
theorem cleanUp_second_invocation_panics :
    cleanUp sOpenNC ≠ none ∧
    (cleanUp sOpenNC).bind (fun r => cleanUp r.1) = none := by
  decide

/-- C5 (amended): cleanup side effects happen at most once per run because
the reader task — the only caller of `cleanUp` — stops right after invoking
it: every reader trace from an open-channel state is panic-free and contains
at most one done-channel close. -/
theorem readerRun_cleanup_at_most_once (dur st now : Int) (inF outF : String)
    (items : List ReadItem) (s : RunState)
    (hp : s.progressClosed = false) (he : s.errorClosed = false)
    (hd : s.doneClosed = false) :
    ∃ s' evs, readerRun dur st now inF outF items s = some (s', evs) ∧
      closeDoneCount evs ≤ 1 := by
  induction items with
  | nil => exact ⟨s, [], rfl, by simp [closeDoneCount]⟩
  | cons head tail ih =>
    cases head with
    | none =>
      refine ⟨cleanUpState s, cleanUpEvents s, ?_, ?_⟩
      · simpa [readerRun] using cleanUp_open s hp he hd
      · rw [closeDoneCount_cleanUpEvents]
    | some line =>
      cases hnp : newProgress line dur st now inF outF with
      | error e =>
        by_cases hne : e = GoError.noProgressInformation
        · subst hne
          have hstep : readerRun dur st now inF outF (some line :: tail) s =
              readerRun dur st now inF outF tail s := by
            simp [readerRun, hnp]
          rw [hstep]; exact ih
        · refine ⟨cleanUpState s,
            Event.sendErr e s.errorReady :: Event.cancelProcess :: cleanUpEvents s, ?_, ?_⟩
          · simp [readerRun, hnp, hne, sendNB, he, cleanUp_open s hp he hd]
          · rw [closeDoneCount_cons_ne _ _ (by simp),
              closeDoneCount_cons_ne _ _ (by simp),
              closeDoneCount_cleanUpEvents]
      | ok p =>
        obtain ⟨s', evs, h1, h2⟩ := ih
        refine ⟨s', Event.sendProgressRec p s.progressReady :: evs, ?_, ?_⟩
        · simp [readerRun, hnp, sendNB, hp, h1]
        · rw [closeDoneCount_cons_ne _ _ (by simp)]; exact h2

/-- C5 witness: a run whose one fatal line triggers cleanup, followed by the
end of the stream. -/
theorem readerRun_cleanup_at_most_once_witness :
    ∃ s' evs, readerRun 100000000000 0 1000000000 "in.mkv" "out.mp4"
        [some lineNABitrate, none] sOpenNC = some (s', evs) ∧
      closeDoneCount evs ≤ 1 :=
  readerRun_cleanup_at_most_once 100000000000 0 1000000000 "in.mkv" "out.mp4"
    [some lineNABitrate, none] sOpenNC rfl rfl rfl

/-- C10: on the non-cancelled path cleanup tries a non-blocking send of true
on the done channel; exactly when that delivered, it additionally tries a
non-blocking send of the all-zero `Progress{}` record on the progress channel
before closing it; the done send itself is dropped when no consumer is
receiving. -/
theorem cleanUp_normal_path_zero_progress (s : RunState)
    (hp : s.progressClosed = false) (he : s.errorClosed = false)
    (hd : s.doneClosed = false) (hc : s.ctxDone = false) :
    cleanUp s = some (cleanUpState s, cleanUpEvents s) ∧
    cleanUpEvents s =
      (if s.doneReady = true then
        [Event.sendDone true true, Event.sendProgressRec zeroProgress s.progressReady,
         Event.closeProgress, Event.closeError, Event.closeDone]
      else
        [Event.sendDone true false,
         Event.closeProgress, Event.closeError, Event.closeDone]) ∧
    zeroProgress.InputFile = "" ∧ zeroProgress.OutputFile = "" ∧
    zeroProgress.Frame = 0 ∧ zeroProgress.FPS = 0 ∧ zeroProgress.Q = 0 ∧
    zeroProgress.Size = 0 ∧ zeroProgress.Time = 0 ∧ zeroProgress.Bitrate = 0 ∧
    zeroProgress.Dup = 0 ∧ zeroProgress.Drop = 0 ∧ zeroProgress.Speed = 0 ∧
    zeroProgress.PercentComplete = 0 ∧ zeroProgress.TimeRemaining = 0 := by
  obtain ⟨cd, fe, pc, ec, dc, pr, er, dr⟩ := s
  simp only at hp he hd hc
  subst hp he hd hc
  revert fe pr er dr
  decide

/-- C10 witness: a consumer is ready on the done channel, none on the
progress channel, so the zero record is attempted and dropped. -/
theorem cleanUp_normal_path_zero_progress_witness :
    cleanUp sOpenReady = some (cleanUpState sOpenReady, cleanUpEvents sOpenReady) ∧
    cleanUpEvents sOpenReady =
      [Event.sendDone true true, Event.sendProgressRec zeroProgress false,
       Event.closeProgress, Event.closeError, Event.closeDone] := by
  have h := cleanUp_normal_path_zero_progress sOpenReady rfl rfl rfl rfl
  refine ⟨h.1, ?_⟩
  rw [h.2.1]
  decide

/-! ## Old-parser chain lemmas -/

theorem oldIntField_error {fields : List String} {idx : Nat} {e e' : GoError}
    (h : oldIntField fields idx e = .error e') : e' = e := by
  unfold oldIntField at h
  split at h
  · split at h <;> simp_all
  · simp_all

theorem oldFloatField_error {fields : List String} {idx : Nat} {e e' : GoError}
    (h : oldFloatField fields idx e = .error e') : e' = e := by
  unfold oldFloatField at h
  split at h
  · split at h <;> simp_all
  · simp_all

theorem oldFloatTrimField_error {fields : List String} {idx : Nat} {cutset : String}
    {e e' : GoError} (h : oldFloatTrimField fields idx cutset e = .error e') : e' = e := by
  unfold oldFloatTrimField at h
  split at h
  · split at h <;> simp_all
  · simp_all

theorem oldFloatNATrimField_error {fields : List String} {idx : Nat} {cutset : String}
    {e e' : GoError} (h : oldFloatNATrimField fields idx cutset e = .error e') : e' = e := by
  unfold oldFloatNATrimField at h
  split at h
  · split at h
    · simp_all
    · split at h <;> simp_all
  · simp_all

theorem parseTimeToken_error {tok : String} {e : GoError}
    (h : parseTimeToken tok = .error e) : e = .time := by
  unfold parseTimeToken at h
  dsimp only at h
  split at h
  · simp_all
  · split at h
    · simp_all
    · split at h
      · simp_all
      · split at h <;> simp_all

theorem oldTimeField_error {fields : List String} {idx : Nat} {e : GoError}
    (h : oldTimeField fields idx = .error e) : e = .time := by
  unfold oldTimeField at h
  split at h
  · split at h
    · simp_all
    · exact parseTimeToken_error h
  · simp_all

theorem oldFloatNATrimField_na {fields : List String} {idx : Nat} (cutset : String)
    (e : GoError) (h1 : idx ≠ 0) (h2 : idx < fields.length)
    (h3 : fields.getD idx "" = "N/A") :
    oldFloatNATrimField fields idx cutset e = .ok 0 := by
  unfold oldFloatNATrimField
  rw [if_pos ⟨h1, h2⟩, if_pos h3]

theorem parseLineOld_na (line : String) :
    (scanIndex (oldFields line) "bitrate" ≠ 0 →
     scanIndex (oldFields line) "bitrate" < (oldFields line).length →
     (oldFields line).getD (scanIndex (oldFields line) "bitrate") "" = "N/A" →
      parseLineOld line ≠ .error .bitrate ∧
        ∀ rf, parseLineOld line = .ok rf → rf.bitrate = 0) ∧
    (scanIndex (oldFields line) "speed" ≠ 0 →
     scanIndex (oldFields line) "speed" < (oldFields line).length →
     (oldFields line).getD (scanIndex (oldFields line) "speed") "" = "N/A" →
      parseLineOld line ≠ .error .speed ∧
        ∀ rf, parseLineOld line = .ok rf → rf.speed = 0) := by
  unfold parseLineOld
  by_cases hpre : goStartsWith line "frame=" = false
  · rw [if_pos hpre]
    constructor <;>
      · intro h1 h2 h3
        exact ⟨by decide, fun rf hrf => by simp at hrf⟩
  · rw [if_neg hpre]
    dsimp only
    constructor
    · intro h1 h2 h3
      have hb := oldFloatNATrimField_na "kbit/s" GoError.bitrate h1 h2 h3
      rw [hb]
      cases hf : oldIntField (oldFields line) (scanIndex (oldFields line) "frame")
          .frameNumber with
      | error e =>
        have := oldIntField_error hf; subst this
        exact ⟨by simp, fun rf hrf => by simp at hrf⟩
      | ok frame =>
        cases hfp : oldFloatField (oldFields line) (scanIndex (oldFields line) "fps") .fps with
        | error e =>
          have := oldFloatField_error hfp; subst this
          exact ⟨by simp, fun rf hrf => by simp at hrf⟩
        | ok fps =>
          cases hq : oldFloatField (oldFields line) (scanIndex (oldFields line) "q") .q with
          | error e =>
            have := oldFloatField_error hq; subst this
            exact ⟨by simp, fun rf hrf => by simp at hrf⟩
          | ok q =>
            cases hs : oldFloatTrimField (oldFields line)
                (scanIndex (oldFields line) "size") "KiB" .size with
            | error e =>
              have := oldFloatTrimField_error hs; subst this
              exact ⟨by simp, fun rf hrf => by simp at hrf⟩
            | ok size =>
              cases ht : oldTimeField (oldFields line) (scanIndex (oldFields line) "time") with
              | error e =>
                have := oldTimeField_error ht; subst this
                exact ⟨by simp, fun rf hrf => by simp at hrf⟩
              | ok tt =>
                cases hsp : oldFloatNATrimField (oldFields line)
                    (scanIndex (oldFields line) "speed") "x" .speed with
                | error e =>
                  have := oldFloatNATrimField_error hsp; subst this
                  exact ⟨by simp, fun rf hrf => by simp at hrf⟩
                | ok speed =>
                  refine ⟨by simp, fun rf hrf => ?_⟩
                  simp only [Except.ok.injEq] at hrf
                  subst hrf
                  rfl
    · intro h1 h2 h3
      have hb := oldFloatNATrimField_na "x" GoError.speed h1 h2 h3
      rw [hb]
      cases hf : oldIntField (oldFields line) (scanIndex (oldFields line) "frame")
          .frameNumber with
      | error e =>
        have := oldIntField_error hf; subst this
        exact ⟨by simp, fun rf hrf => by simp at hrf⟩
      | ok frame =>
        cases hfp : oldFloatField (oldFields line) (scanIndex (oldFields line) "fps") .fps with
        | error e =>
          have := oldFloatField_error hfp; subst this
          exact ⟨by simp, fun rf hrf => by simp at hrf⟩
        | ok fps =>
          cases hq : oldFloatField (oldFields line) (scanIndex (oldFields line) "q") .q with
          | error e =>
            have := oldFloatField_error hq; subst this
            exact ⟨by simp, fun rf hrf => by simp at hrf⟩
          | ok q =>
            cases hs : oldFloatTrimField (oldFields line)
                (scanIndex (oldFields line) "size") "KiB" .size with
            | error e =>
              have := oldFloatTrimField_error hs; subst this
              exact ⟨by simp, fun rf hrf => by simp at hrf⟩
            | ok size =>
              cases ht : oldTimeField (oldFields line) (scanIndex (oldFields line) "time") with
              | error e =>
                have := oldTimeField_error ht; subst this
                exact ⟨by simp, fun rf hrf => by simp at hrf⟩
              | ok tt =>
                cases hbr : oldFloatNATrimField (oldFields line)
                    (scanIndex (oldFields line) "bitrate") "kbit/s" .bitrate with
                | error e =>
                  have := oldFloatNATrimField_error hbr; subst this
                  exact ⟨by simp, fun rf hrf => by simp at hrf⟩
                | ok bitrate =>
                  refine ⟨by simp, fun rf hrf => ?_⟩
                  simp only [Except.ok.injEq] at hrf
                  subst hrf
                  rfl

theorem newProgressOld_error_iff {line : String} {d st n : Int} {i o : String} {e : GoError} :
    newProgressOld line d st n i o = .error e ↔ parseLineOld line = .error e := by
  unfold newProgressOld
  cases h : parseLineOld line <;> simp

theorem newProgressOld_ok_fields {line : String} {d st n : Int} {i o : String}
    {r : ProgressOld} (h : newProgressOld line d st n i o = .ok r) :
    ∃ rf, parseLineOld line = .ok rf ∧ r.Bitrate = rf.bitrate ∧ r.Speed = rf.speed := by
  unfold newProgressOld at h
  cases hp : parseLineOld line with
  | error e => rw [hp] at h; simp at h
  | ok rf =>
    rw [hp] at h
    simp only [Except.ok.injEq] at h
    exact ⟨rf, rfl, by rw [← h], by rw [← h]⟩

/-- C1 (amended): the epsilon clamp exists in the older name-scanning parser
only.  There, whenever a line parses successfully, the percent-complete value
stored in the record — the value the time-remaining formula divides by — is
never zero: a zero ratio is replaced by 0.01 before the division. -/
theorem newProgressOld_percent_complete_nonzero (line : String) (d st now : Int)
    (i o : String) (r : ProgressOld)
    (h : newProgressOld line d st now i o = .ok r) :
    r.PercentComplete ≠ 0 := by
  unfold newProgressOld at h
  cases hp : parseLineOld line with
  | error e => rw [hp] at h; simp at h
  | ok rf =>
    rw [hp] at h
    simp only [Except.ok.injEq] at h
    subst h
    dsimp only
    split
    · norm_num
    · next h0 => exact h0

/-- C1 witness: a successfully parsed line with zero elapsed media time; the
older parser clamps the percent complete to 0.01. -/
theorem newProgressOld_percent_complete_nonzero_witness :
    ∃ r, newProgressOld lineZeroTime 7446000000000 0 1000000000 "in.mkv" "out.mp4" = .ok r ∧
      r.PercentComplete ≠ 0 := by
  have hok : exceptIsOk
      (newProgressOld lineZeroTime 7446000000000 0 1000000000 "in.mkv" "out.mp4") = true := by
    decide
  cases h : newProgressOld lineZeroTime 7446000000000 0 1000000000 "in.mkv" "out.mp4" with
  | error e => rw [h] at hok; simp [exceptIsOk] at hok
  | ok r =>
    exact ⟨r, rfl,
      newProgressOld_percent_complete_nonzero lineZeroTime 7446000000000 0 1000000000
        "in.mkv" "out.mp4" r h⟩

/-- C1 counterexample: the current fixed-position parser performs no clamp.
On a successfully parsed line whose elapsed media time is zero it stores an
exactly-zero percent complete, which is then used as the divisor of the
time-remaining computation. -/
theorem newProgress_zero_percent_divisor :
    (newProgress lineZeroTime 7446000000000 0 1000000000 "in.mkv" "out.mp4").map
      (fun r => r.PercentComplete) = .ok 0 := by
  decide

/-- C6 (amended): in the older name-scanning parser the literal token N/A in
the bitrate (resp. speed) value position never causes the bitrate (resp.
speed) failure, and a record produced from such a line carries a zero bitrate
(resp. speed).  The current fixed-position parser instead fails on N/A (see
the counterexample). -/
theorem newProgressOld_na_is_zero (line : String) (d st now : Int) (i o : String) :
    (scanIndex (oldFields line) "bitrate" ≠ 0 →
     scanIndex (oldFields line) "bitrate" < (oldFields line).length →
     (oldFields line).getD (scanIndex (oldFields line) "bitrate") "" = "N/A" →
      newProgressOld line d st now i o ≠ .error .bitrate ∧
        ∀ r, newProgressOld line d st now i o = .ok r → r.Bitrate = 0) ∧
    (scanIndex (oldFields line) "speed" ≠ 0 →
     scanIndex (oldFields line) "speed" < (oldFields line).length →
     (oldFields line).getD (scanIndex (oldFields line) "speed") "" = "N/A" →
      newProgressOld line d st now i o ≠ .error .speed ∧
        ∀ r, newProgressOld line d st now i o = .ok r → r.Speed = 0) := by
  constructor
  · intro h1 h2 h3
    obtain ⟨hne, hok⟩ := (parseLineOld_na line).1 h1 h2 h3
    constructor
    · intro hcontra; exact hne (newProgressOld_error_iff.mp hcontra)
    · intro r hr
      obtain ⟨rf, hrf, hbit, _⟩ := newProgressOld_ok_fields hr
      rw [hbit]; exact hok rf hrf
  · intro h1 h2 h3
    obtain ⟨hne, hok⟩ := (parseLineOld_na line).2 h1 h2 h3
    constructor
    · intro hcontra; exact hne (newProgressOld_error_iff.mp hcontra)
    · intro r hr
      obtain ⟨rf, hrf, _, hsp⟩ := newProgressOld_ok_fields hr
      rw [hsp]; exact hok rf hrf

/-- C6 witness: a line with bitrate N/A parses in the older parser with a
zero bitrate. -/
theorem newProgressOld_na_is_zero_witness :
    ∃ r, newProgressOld lineNABitrate 100000000000 0 1000000000 "in.mkv" "out.mp4" = .ok r ∧
      r.Bitrate = 0 := by
  have hok : exceptIsOk
      (newProgressOld lineNABitrate 100000000000 0 1000000000 "in.mkv" "out.mp4") = true := by
    decide
  cases h : newProgressOld lineNABitrate 100000000000 0 1000000000 "in.mkv" "out.mp4" with
  | error e => rw [h] at hok; simp [exceptIsOk] at hok
  | ok r =>
    exact ⟨r, rfl,
      ((newProgressOld_na_is_zero lineNABitrate 100000000000 0 1000000000
        "in.mkv" "out.mp4").1 (by decide) (by decide) (by decide)).2 r h⟩

/-- C6 counterexample: the current fixed-position parser fails with the
bitrate error on a line whose bitrate field is N/A. -/
theorem newProgress_na_bitrate_fails :
    newProgress lineNABitrate 100000000000 0 1000000000 "in.mkv" "out.mp4" =
      .error .bitrate := by
  decide

/-- C7: a line not beginning with the literal marker frame= always yields the
distinct benign outcome ErrNoProgressInformation — never another failure kind
and never a record — and the reader task silently skips it and continues with
the rest of the stream. -/
theorem newProgress_not_progress_line (line : String) (dur st now : Int)
    (inF outF : String) (rest : List ReadItem) (s : RunState)
    (h : goStartsWith line "frame=" = false) :
    newProgress line dur st now inF outF = .error .noProgressInformation ∧
    readerRun dur st now inF outF (some line :: rest) s =
      readerRun dur st now inF outF rest s := by
  have hp : parseLine line = .error .noProgressInformation := by
    unfold parseLine; rw [if_pos h]
  have hnp : newProgress line dur st now inF outF = .error .noProgressInformation := by
    unfold newProgress; rw [hp]
  exact ⟨hnp, by simp [readerRun, hnp]⟩

/-- C7 witness: a diagnostic line that is not a progress line. -/
theorem newProgress_not_progress_line_witness :
    newProgress "Stream mapping:" 100 0 1 "in.mkv" "out.mp4" =
      .error .noProgressInformation ∧
    readerRun 100 0 1 "in.mkv" "out.mp4" [some "Stream mapping:"] sOpenNC =
      readerRun 100 0 1 "in.mkv" "out.mp4" [] sOpenNC :=
  newProgress_not_progress_line "Stream mapping:" 100 0 1 "in.mkv" "out.mp4" [] sOpenNC
    (by decide)

/-- C8: under the fixed-position layout, a line that does begin with frame=
but whose tokenization does not yield exactly 18 tokens fails with the
wrong-token-count failure. -/
theorem newProgress_wrong_field_count (line : String) (dur st now : Int)
    (inF outF : String) (h1 : goStartsWith line "frame=" = true)
    (h2 : (splitFields line).length ≠ 18) :
    newProgress line dur st now inF outF = .error .wrongNumberOfFields := by
  have hp : parseLine line = .error .wrongNumberOfFields := by
    unfold parseLine
    rw [if_neg (by simp [h1])]
    unfold parseFieldsOf
    rw [if_pos h2]
  unfold newProgress; rw [hp]

/-- C8 witness: a line omitting the dup and drop fields tokenizes to 14
tokens and fails the field-count check. -/
theorem newProgress_wrong_field_count_witness :
    (splitFields lineNoDupDrop).length = 14 ∧
    newProgress lineNoDupDrop 100000000000 0 1000000000 "in.mkv" "out.mp4" =
      .error .wrongNumberOfFields :=
  ⟨by decide,
   newProgress_wrong_field_count lineNoDupDrop 100000000000 0 1000000000 "in.mkv" "out.mp4"
     (by decide) (by decide)⟩

/-- C9 (amended): the parser is deterministic given the wall-clock reading as
an explicit input; moreover every outcome component that is not derived from
the clock — the failure kind, and every record field except time remaining
and estimated finish time — is the same whatever instant the clock reads. -/
theorem newProgress_clock_free_deterministic (line : String) (d st : Int)
    (i o : String) (n₁ n₂ : Int) :
    stableOutcome (newProgress line d st n₁ i o) =
      stableOutcome (newProgress line d st n₂ i o) := by
  unfold newProgress
  cases h : parseLine line <;> simp [stableOutcome, Except.map]

/-- C9 counterexample: the source reads the wall clock (time.Since), so two
calls with identical line, total duration, start time and path identifiers
made at different instants return records that differ in TimeRemaining. -/
theorem newProgress_differs_with_clock :
    newProgress lineFull 7446000000000 0 1000000000 "in.mkv" "out.mp4" ≠
      newProgress lineFull 7446000000000 0 3000000000 "in.mkv" "out.mp4" ∧
    (newProgress lineFull 7446000000000 0 1000000000 "in.mkv" "out.mp4").map
      (fun r => r.TimeRemaining) = .ok 1000000000 ∧
    (newProgress lineFull 7446000000000 0 3000000000 "in.mkv" "out.mp4").map
      (fun r => r.TimeRemaining) = .ok 3000000000 := by
  decide

theorem i64_eq_self {n : Int} (h1 : -9223372036854775808 ≤ n)
    (h2 : n < 9223372036854775808) : i64 n = n := by
  unfold i64
  omega

theorem closeDone_mem_cleanUpEvents (s : RunState) :
    Event.closeDone ∈ cleanUpEvents s := by
  obtain ⟨cd, fe, pc, ec, dc, pr, er, dr⟩ := s
  revert cd fe pc ec dc pr er dr
  decide

theorem newProgress_ok_time {line : String} {d st n : Int} {i o : String}
    {r : Progress} (h : newProgress line d st n i o = .ok r) :
    ∃ rf, parseLine line = .ok rf ∧ r.Time = rf.timeThroughFile := by
  unfold newProgress at h
  cases hp : parseLine line with
  | error e => rw [hp] at h; simp at h
  | ok rf =>
    rw [hp] at h
    simp only [Except.ok.injEq] at h
    exact ⟨rf, rfl, by rw [← h]⟩

theorem parseLine_ok_fieldsOf {line : String} {rf : RawFields}
    (h : parseLine line = .ok rf) :
    parseFieldsOf (splitFields line) = .ok rf := by
  unfold parseLine at h
  split at h
  · simp at h
  · exact h

theorem parseFieldsOf_time {fields : List String} {rf : RawFields}
    (h : parseFieldsOf fields = .ok rf) :
    parseTimeToken (fields.getD TimeIndex "") = .ok rf.timeThroughFile := by
  unfold parseFieldsOf at h
  by_cases h18 : fields.length ≠ 18
  · rw [if_pos h18] at h; simp at h
  · rw [if_neg h18] at h
    cases hf : goAtoi (fields.getD FrameIndex "") with
    | none => rw [hf] at h; simp at h
    | some frame =>
      rw [hf] at h
      cases hfp : goParseFloat (fields.getD FPSIndex "") with
      | none => rw [hfp] at h; simp at h
      | some fps =>
        rw [hfp] at h
        cases hq : goParseFloat (fields.getD QIndex "") with
        | none => rw [hq] at h; simp at h
        | some q =>
          rw [hq] at h
          cases hsz : goParseFloat (goTrimRight (fields.getD SizeIndex "") "KiB") with
          | none => rw [hsz] at h; simp at h
          | some size =>
            rw [hsz] at h
            cases ht : parseTimeToken (fields.getD TimeIndex "") with
            | error e => rw [ht] at h; simp at h
            | ok tt =>
              rw [ht] at h
              cases hbr : goParseFloat (goTrimRight (fields.getD BitrateIndex "") "kbit/s") with
              | none => rw [hbr] at h; simp at h
              | some bitrate =>
                rw [hbr] at h
                cases hd : goAtoi (fields.getD DupIndex "") with
                | none => rw [hd] at h; simp at h
                | some dup =>
                  rw [hd] at h
                  cases hdr : goAtoi (fields.getD DropIndex "") with
                  | none => rw [hdr] at h; simp at h
                  | some drop =>
                    rw [hdr] at h
                    cases hsp : goParseFloat (goTrimRight (fields.getD SpeedIndex "") "x") with
                    | none => rw [hsp] at h; simp at h
                    | some speed =>
                      rw [hsp] at h
                      simp only [Except.ok.injEq] at h
                      rw [← h]

/-- C2 (amended): when the time field splits into three parts h:m:s.f, the
elapsed media time the record carries is h hours + m minutes plus only the
integer part of the fractional seconds — the conversion through the duration
type truncates the float toward zero, so the fraction is dropped.  Bounds on
the parts keep the 64-bit duration arithmetic away from wrap-around. -/
theorem newProgress_time_truncates (line : String) (d st now : Int) (i o : String)
    (r : Progress) (a b c : String) (hh mm : Int) (ss : ℚ)
    (h : newProgress line d st now i o = .ok r)
    (hsplit : goSplit ((splitFields line).getD TimeIndex "") ':' = [a, b, c])
    (ha : goAtoi a = some hh) (hb : goAtoi b = some mm) (hc : goParseFloat c = some ss)
    (hh0 : 0 ≤ hh) (hh1 : hh ≤ 1000000) (hm0 : 0 ≤ mm) (hm1 : mm ≤ 1000000)
    (hs0 : 0 ≤ ratTrunc ss) (hs1 : ratTrunc ss ≤ 1000000) :
    r.Time = hh * durHour + mm * durMinute + ratTrunc ss * durSecond := by
  obtain ⟨rf, hpl, htime⟩ := newProgress_ok_time h
  have hpf := parseLine_ok_fieldsOf hpl
  have ht := parseFieldsOf_time hpf
  unfold parseTimeToken at ht
  dsimp only at ht
  rw [hsplit] at ht
  simp only [List.length_cons, List.length_nil, List.getD_cons_zero, List.getD_cons_succ,
    ha, hb, hc] at ht
  norm_num at ht
  rw [htime, ← ht]
  unfold w64add w64mul i64 durHour durMinute durSecond
  omega

/-- C2 witness: the time field 01:02:03.50 of a successfully parsed line
produces exactly 1h2m3s — the half second is dropped. -/
theorem newProgress_time_truncates_witness :
    ∃ r, newProgress lineFull 7446000000000 0 1000000000 "in.mkv" "out.mp4" = .ok r ∧
      r.Time = 1 * durHour + 2 * durMinute + ratTrunc (7/2) * durSecond ∧
      r.Time = 3723000000000 := by
  have hok : exceptIsOk
      (newProgress lineFull 7446000000000 0 1000000000 "in.mkv" "out.mp4") = true := by
    decide
  cases h : newProgress lineFull 7446000000000 0 1000000000 "in.mkv" "out.mp4" with
  | error e => rw [h] at hok; simp [exceptIsOk] at hok
  | ok r =>
    have heq := newProgress_time_truncates lineFull 7446000000000 0 1000000000
      "in.mkv" "out.mp4" r "01" "02" "03.50" 1 2 (7/2) h (by decide) (by decide)
      (by decide) (by decide) (by decide) (by decide) (by decide) (by decide)
      (by decide) (by decide)
    exact ⟨r, rfl, heq, by rw [heq]; decide⟩

/-- C2 counterexample: the claim asserts 01:02:03.50 parses to exactly
1h2m3.5s; the code produces 1h2m3s, dropping the fraction, so the record
value differs from the spec-exact combination by half a second. -/
theorem newProgress_time_not_exact :
    (newProgress lineFull 7446000000000 0 1000000000 "in.mkv" "out.mp4").map
      (fun r => (r.Time : ℚ)) = .ok 3723000000000 ∧
    specExactTimeNs 1 2 (7/2) = 3723500000000 ∧
    (3723000000000 : ℚ) ≠ 3723500000000 := by
  refine ⟨by decide, ?_, by decide⟩
  unfold specExactTimeNs
  norm_num

/-- C3: a parse failure other than the benign not-a-progress outcome is
forwarded to the error channel with a non-blocking send (delivered exactly
when a consumer is receiving, dropped otherwise), the subprocess is asked to
terminate, cleanup runs, and the reader task stops: the trace is the same
whatever lines would have followed. -/
theorem readerRun_fatal_error (dur st now : Int) (inF outF : String) (line : String)
    (rest : List ReadItem) (s : RunState) (e : GoError)
    (hparse : newProgress line dur st now inF outF = .error e)
    (hne : e ≠ .noProgressInformation)
    (hp : s.progressClosed = false) (he : s.errorClosed = false)
    (hd : s.doneClosed = false) :
    readerRun dur st now inF outF (some line :: rest) s =
      some (cleanUpState s,
        Event.sendErr e s.errorReady :: Event.cancelProcess :: cleanUpEvents s) ∧
    Event.closeDone ∈ cleanUpEvents s ∧
    readerRun dur st now inF outF (some line :: rest) s =
      readerRun dur st now inF outF [some line] s := by
  have hstep : ∀ tl : List ReadItem,
      readerRun dur st now inF outF (some line :: tl) s =
        some (cleanUpState s,
          Event.sendErr e s.errorReady :: Event.cancelProcess :: cleanUpEvents s) := by
    intro tl
    simp [readerRun, hparse, hne, sendNB, he, cleanUp_open s hp he hd]
  exact ⟨hstep rest, closeDone_mem_cleanUpEvents s, by rw [hstep rest, hstep []]⟩

/-- C3 witness: the malformed line with frame=abc yields the frame-specific
failure and terminates the run even though a further well-formed line
follows. -/
theorem readerRun_fatal_error_witness :
    readerRun 100000000000 0 1000000000 "in.mkv" "out.mp4"
        [some lineBadFrame, some lineFull] sOpenNC =
      some (cleanUpState sOpenNC,
        Event.sendErr GoError.frameNumber sOpenNC.errorReady ::
          Event.cancelProcess :: cleanUpEvents sOpenNC) ∧
    newProgress lineBadFrame 100000000000 0 1000000000 "in.mkv" "out.mp4" =
      .error .frameNumber := by
  have h := readerRun_fatal_error 100000000000 0 1000000000 "in.mkv" "out.mp4"
    lineBadFrame [some lineFull] sOpenNC GoError.frameNumber (by decide) (by decide)
    rfl rfl rfl
  exact ⟨h.1, by decide⟩
